import Mathlib

/-!
# Verification of `watch_transaction_for_confirmations.ts`

Shallow embedding of the confirmation-watching subsystem of
`packages/web3-eth/src/utils/watch_transaction_for_confirmations.ts`.

The source exposes one entry point, `watchTransactionForConfirmations`,
which validates a transaction receipt and then starts one of two
observers on the emitter:

* `watchByPolling` — a `setInterval` loop holding a mutable
  `confirmationNumber` counter (initially 1).  On each tick it cancels
  the interval when the counter has reached the configured threshold,
  then (unconditionally, the source has no early return) fetches the
  block at height `receipt.blockNumber + confirmationNumber` and, when
  that block exists with a hash, increments the counter and emits a
  `confirmation` event carrying the new counter value, the receipt and
  the fetched block's hash.
* `watchBySubscription` — subscribes to `newHeads`; its data handler
  ignores a header whose `number` field is nullish or zero (the JS
  truthiness test `!data?.number`), otherwise emits a `confirmation`
  event with `BigInt(data.number) - BigInt(receipt.blockNumber) + 1`,
  the receipt and the header's `parentHash`, and unsubscribes once that
  value reaches the threshold; its error handler unsubscribes and falls
  back to `watchByPolling` (whose counter starts again at 1); a
  rejection of the initial subscribe call raises a `SubscriptionError`
  and attaches no handlers at all.

Machine integers do not overflow here: the source computes with
JavaScript `BigInt`s, so block numbers are `Nat` and the (possibly
negative) confirmation number of the subscription path is `Int`.
Timer callbacks are modelled as run-to-completion steps of a state
machine driven by an explicit input trace (delivered headers, a stream
error, timer ticks); the block source is an availability function
`Nat → Option Nat` giving the hash of a block when it exists.
-/

namespace Web3Watch

/-- A transaction receipt as it reaches this module.  `blockHash` and
`blockNumber` are `Option` because the source explicitly guards against
their absence (`isNullish`, JS falsiness); hashes and heights are `Nat`. -/
structure ReceiptInfo where
  transactionHash : Nat
  blockHash : Option Nat
  blockNumber : Option Nat
deriving Repr, DecidableEq

/-- The payload `emit('confirmation', …)` sends: the formatted
confirmation number (an integer: the subscription path computes it by
BigInt subtraction, so it can be non-positive), the original receipt and
a latest-block hash. -/
structure ConfirmationEvent where
  confirmationNumber : Int
  receipt : ReceiptInfo
  latestBlockHash : Nat
deriving Repr, DecidableEq

/-- A `newHeads` header (`BlockOutput`): the `number` field may be
absent, and the JS guard `!data?.number` also rejects the value 0. -/
structure BlockHeader where
  number : Option Nat
  parentHash : Nat
  hash : Nat
deriving Repr, DecidableEq

/-- The errors this module can raise.  `typeError` is the JavaScript
`TypeError` raised by a member access on a nullish value. -/
inductive JsError where
  | typeError
  | transactionMissingReceiptOrBlockHash (receipt : Option ReceiptInfo)
      (blockHash : Option Nat) (transactionHash : Nat)
  | transactionReceiptMissingBlockNumber (receipt : ReceiptInfo)
  | subscriptionError
deriving Repr, DecidableEq

/-- Mutable state captured by the `setInterval` closure of
`watchByPolling`: the `confirmationNumber` counter and whether the
interval is still scheduled (`clearInterval` not yet called). -/
structure PollState where
  confirmationNumber : Nat
  active : Bool
deriving Repr, DecidableEq

/-- Observable outcome of polling steps: the new closure state, the
`confirmation` events emitted and the block heights fetched through
`getBlockByNumber`. -/
structure PollOut where
  state : PollState
  events : List ConfirmationEvent
  fetches : List Nat
deriving Repr, DecidableEq

/-- `watchByPolling` starts its interval with `confirmationNumber = 1`
("having a transactionReceipt means the transaction has already been
included in at least one block, so we start with 1"). -/
def watchByPolling : PollState := ⟨1, true⟩

/-- One tick of the `setInterval` callback of `watchByPolling`.  When
the interval has been cleared the callback no longer runs.  Otherwise:
if `confirmationNumber >= transactionConfirmationBlocks` the interval is
cleared (the callback does NOT return early); then
`getBlockByNumber(receipt.blockNumber + confirmationNumber)` is awaited
and, if the block exists with a hash, the counter is incremented and a
`confirmation` event with the new counter, the receipt and the block's
hash is emitted. -/
def pollTick (threshold : Nat) (receipt : ReceiptInfo) (avail : Nat → Option Nat)
    (s : PollState) : PollOut :=
  if s.active then
    let stillActive := decide (s.confirmationNumber < threshold)
    let height := receipt.blockNumber.getD 0 + s.confirmationNumber
    match avail height with
    | some blockHash =>
        ⟨⟨s.confirmationNumber + 1, stillActive⟩,
          [⟨((s.confirmationNumber + 1 : Nat) : Int), receipt, blockHash⟩],
          [height]⟩
    | none => ⟨⟨s.confirmationNumber, stillActive⟩, [], [height]⟩
  else ⟨s, [], []⟩

/-- `n` consecutive interval ticks, collecting emitted events and
fetched heights in order. -/
def pollRun (threshold : Nat) (receipt : ReceiptInfo) (avail : Nat → Option Nat) :
    Nat → PollState → PollOut
  | 0, s => ⟨s, [], []⟩
  | n + 1, s =>
    let o₁ := pollTick threshold receipt avail s
    let o₂ := pollRun threshold receipt avail n o₁.state
    ⟨o₂.state, o₁.events ++ o₂.events, o₁.fetches ++ o₂.fetches⟩

/-- The block source of claim C1's scenario: exactly the blocks
`B+1 … B+T-1` exist (with hashes given by `hf`); later blocks have not
been produced.  `height ≤ B+T-1` is phrased `height + 1 ≤ B + T` to
avoid truncated subtraction. -/
def availExact (B T : Nat) (hf : Nat → Nat) : Nat → Option Nat := fun height =>
  if B + 1 ≤ height ∧ height + 1 ≤ B + T then some (hf height) else none

/-- The `subscription.on('data', …)` handler of `watchBySubscription`.
Returns the events it emits and whether it called
`subscription.unsubscribe()`.  `if (!data?.number) return;` ignores a
header whose `number` is nullish or zero; otherwise it emits
`BigInt(data.number) - BigInt(receipt.blockNumber) + 1` together with
the receipt and the header's `parentHash`, then unsubscribes when that
number reaches `transactionConfirmationBlocks`. -/
def subDataHandler (threshold : Nat) (receipt : ReceiptInfo) (data : BlockHeader) :
    List ConfirmationEvent × Bool :=
  match data.number with
  | none => ([], false)
  | some n =>
    if n = 0 then ([], false)
    else
      let confirmationNumber : Int :=
        (n : Int) - ((receipt.blockNumber.getD 0 : Nat) : Int) + 1
      ([⟨confirmationNumber, receipt, data.parentHash⟩],
        decide ((threshold : Int) ≤ confirmationNumber))

/-- Inputs a running watch can receive: a header delivered on the
subscription, a subscription stream error, or an interval timer tick. -/
inductive WatchInput where
  | header (data : BlockHeader)
  | streamError
  | tick
deriving Repr, DecidableEq

/-- Whether an input is a header on which the data handler calls
`unsubscribe` (its confirmation number reaches the threshold). -/
def triggerInput (threshold : Nat) (receipt : ReceiptInfo) : WatchInput → Bool
  | .header data => (subDataHandler threshold receipt data).2
  | .streamError => false
  | .tick => false

/-- Runtime state of a watch: subscription active, subscription
unsubscribed after reaching the threshold, or polling (initially so, or
after the error-handler fallback). -/
inductive WatchState where
  | subActive
  | subDone
  | polling (s : PollState)
deriving Repr, DecidableEq

/-- Observable outcome of watch steps: new state, events emitted on the
promi-event emitter, number of `unsubscribe()` calls performed, and
block heights fetched. -/
structure WatchOut where
  state : WatchState
  events : List ConfirmationEvent
  unsubs : Nat
  fetches : List Nat
deriving Repr, DecidableEq

/-- One step of a watch.  While the subscription is active, a header is
processed by `subDataHandler` (unsubscribing moves to `subDone`); a
stream error runs the `on('error', …)` handler, which unsubscribes and
restarts via `watchByPolling` (counter back at 1).  After `unsubscribe`
the subscription delivers nothing.  In polling mode only timer ticks do
anything. -/
def watchStep (threshold : Nat) (receipt : ReceiptInfo) (avail : Nat → Option Nat)
    (w : WatchState) (i : WatchInput) : WatchOut :=
  match w, i with
  | .subActive, .header data =>
    let r := subDataHandler threshold receipt data
    if r.2 then ⟨.subDone, r.1, 1, []⟩ else ⟨.subActive, r.1, 0, []⟩
  | .subActive, .streamError => ⟨.polling watchByPolling, [], 1, []⟩
  | .subActive, .tick => ⟨.subActive, [], 0, []⟩
  | .subDone, _ => ⟨.subDone, [], 0, []⟩
  | .polling s, .tick =>
    let o := pollTick threshold receipt avail s
    ⟨.polling o.state, o.events, 0, o.fetches⟩
  | .polling s, .header _ => ⟨.polling s, [], 0, []⟩
  | .polling s, .streamError => ⟨.polling s, [], 0, []⟩

/-- A watch run over an input trace, collecting outputs in order. -/
def watchRun (threshold : Nat) (receipt : ReceiptInfo) (avail : Nat → Option Nat) :
    List WatchInput → WatchState → WatchOut
  | [], w => ⟨w, [], 0, []⟩
  | i :: is, w =>
    let o₁ := watchStep threshold receipt avail w i
    let o₂ := watchRun threshold receipt avail is o₁.state
    ⟨o₂.state, o₁.events ++ o₂.events, o₁.unsubs + o₂.unsubs, o₁.fetches ++ o₂.fetches⟩

/-- The synchronous validation at the top of
`watchTransactionForConfirmations`.  The first guard is
`isNullish(transactionReceipt) || isNullish(transactionReceipt.blockHash)`;
when the receipt itself is nullish, building the thrown error's payload
evaluates `transactionReceipt.blockHash` — a member access on a nullish
value, which raises a JavaScript `TypeError` instead of the intended
`TransactionMissingReceiptOrBlockHashError`.  The second guard is the
truthiness test `!transactionReceipt.blockNumber`, which fires when the
block number is absent or zero. -/
def watchValidate (transactionReceipt : Option ReceiptInfo) (transactionHash : Nat) :
    Except JsError ReceiptInfo :=
  match transactionReceipt with
  | none => .error .typeError
  | some r =>
    if r.blockHash.isNone then
      .error (.transactionMissingReceiptOrBlockHash (some r) r.blockHash transactionHash)
    else if r.blockNumber.getD 0 = 0 then
      .error (.transactionReceiptMissingBlockNumber r)
    else .ok r

/-- The setup phase of `watchBySubscription`: `subscribe('newHeads')`
either resolves (the `data`/`error` handlers are attached and the watch
is live) or rejects, in which case the `.catch` handler throws a
`SubscriptionError` — it attaches no handlers and does not start
polling. -/
def watchBySubscription (subscribeOk : Bool) : Except JsError WatchState :=
  if subscribeOk then .ok .subActive else .error .subscriptionError

/-- Events observable on the emitter given the outcome of starting a
watch: a watch that failed to start emits nothing. -/
def emittedEvents : Except JsError (List ConfirmationEvent) → List ConfirmationEvent
  | .ok events => events
  | .error _ => []

/-- `watchTransactionForConfirmations`: synchronous validation, then a
capability probe (`provider.supportsSubscriptions()`) selects
`watchBySubscription` or `watchByPolling`; the chosen observer is then
driven by the input trace.  The result is the event trace, or the error
raised. -/
def watchTransactionForConfirmations (supportsSubscriptions subscribeOk : Bool)
    (threshold : Nat) (avail : Nat → Option Nat)
    (transactionReceipt : Option ReceiptInfo) (transactionHash : Nat)
    (inputs : List WatchInput) : Except JsError (List ConfirmationEvent) :=
  match watchValidate transactionReceipt transactionHash with
  | .error e => .error e
  | .ok r =>
    if supportsSubscriptions then
      match watchBySubscription subscribeOk with
      | .ok w => .ok (watchRun threshold r avail inputs w).events
      | .error e => .error e
    else
      .ok (watchRun threshold r avail inputs (.polling watchByPolling)).events

/-! ## Helper lemmas -/

/-- Once the interval has been cleared, no tick runs: state, events and
fetches are unchanged for any number of further scheduling rounds. -/
lemma pollRun_inactive (threshold : Nat) (receipt : ReceiptInfo)
    (avail : Nat → Option Nat) (n : Nat) (s : PollState) (h : s.active = false) :
    pollRun threshold receipt avail n s = ⟨s, [], []⟩ := by
  induction n with
  | zero => rfl
  | succ n ih => simp [pollRun, pollTick, h, ih]

/-- Every event a polling run emits carries a confirmation number
strictly above the starting counter, and the emitted numbers are
strictly increasing along the run. -/
lemma pollRun_events_lt (threshold : Nat) (receipt : ReceiptInfo)
    (avail : Nat → Option Nat) (n : Nat) :
    ∀ s : PollState,
      (∀ e ∈ (pollRun threshold receipt avail n s).events,
        (s.confirmationNumber : Int) < e.confirmationNumber) ∧
      (pollRun threshold receipt avail n s).events.Pairwise
        (fun a b => a.confirmationNumber < b.confirmationNumber) := by
  induction n with
  | zero => intro s; exact ⟨by simp [pollRun], by simp [pollRun]⟩
  | succ n ih =>
    intro s
    cases hs : s.active with
    | false =>
      have hrw : pollRun threshold receipt avail (n + 1) s =
          pollRun threshold receipt avail n s := by
        show (⟨_, _, _⟩ : PollOut) = _
        simp [pollTick, hs]
      rw [hrw]
      exact ih s
    | true =>
      cases havail : avail (receipt.blockNumber.getD 0 + s.confirmationNumber) with
      | none =>
        have h := ih ⟨s.confirmationNumber, decide (s.confirmationNumber < threshold)⟩
        have hrw : pollRun threshold receipt avail (n + 1) s =
            ⟨(pollRun threshold receipt avail n
                ⟨s.confirmationNumber, decide (s.confirmationNumber < threshold)⟩).state,
              (pollRun threshold receipt avail n
                ⟨s.confirmationNumber, decide (s.confirmationNumber < threshold)⟩).events,
              (receipt.blockNumber.getD 0 + s.confirmationNumber) ::
                (pollRun threshold receipt avail n
                  ⟨s.confirmationNumber, decide (s.confirmationNumber < threshold)⟩).fetches⟩ := by
          show (⟨_, _, _⟩ : PollOut) = _
          simp [pollTick, hs, havail]
        rw [hrw]
        exact h
      | some bh =>
        have h := ih ⟨s.confirmationNumber + 1, decide (s.confirmationNumber < threshold)⟩
        have hrw : pollRun threshold receipt avail (n + 1) s =
            ⟨(pollRun threshold receipt avail n
                ⟨s.confirmationNumber + 1, decide (s.confirmationNumber < threshold)⟩).state,
              ⟨((s.confirmationNumber + 1 : Nat) : Int), receipt, bh⟩ ::
                (pollRun threshold receipt avail n
                  ⟨s.confirmationNumber + 1, decide (s.confirmationNumber < threshold)⟩).events,
              (receipt.blockNumber.getD 0 + s.confirmationNumber) ::
                (pollRun threshold receipt avail n
                  ⟨s.confirmationNumber + 1, decide (s.confirmationNumber < threshold)⟩).fetches⟩ := by
          show (⟨_, _, _⟩ : PollOut) = _
          simp [pollTick, hs, havail]
        rw [hrw]
        constructor
        · intro e he
          rcases List.mem_cons.mp he with he | he
          · subst he; push_cast; omega
          · have := h.1 e he
            push_cast at this ⊢
            omega
        · rw [List.pairwise_cons]
          exact ⟨fun e he => h.1 e he, h.2⟩

/-- After `unsubscribe`, the subscription delivers nothing: every input
is absorbed without events, unsubscribes or fetches. -/
lemma watchStep_subDone (threshold : Nat) (receipt : ReceiptInfo)
    (avail : Nat → Option Nat) (i : WatchInput) :
    watchStep threshold receipt avail .subDone i = ⟨.subDone, [], 0, []⟩ := by
  cases i <;> rfl

/-- A whole run from the unsubscribed state is silent. -/
lemma watchRun_subDone (threshold : Nat) (receipt : ReceiptInfo)
    (avail : Nat → Option Nat) (inputs : List WatchInput) :
    watchRun threshold receipt avail inputs .subDone = ⟨.subDone, [], 0, []⟩ := by
  induction inputs with
  | nil => rfl
  | cons i is ih => simp [watchRun, watchStep_subDone, ih]

/-- Runs compose over concatenated input traces. -/
lemma watchRun_append (threshold : Nat) (receipt : ReceiptInfo)
    (avail : Nat → Option Nat) (xs ys : List WatchInput) (w : WatchState) :
    watchRun threshold receipt avail (xs ++ ys) w =
      ⟨(watchRun threshold receipt avail ys
          (watchRun threshold receipt avail xs w).state).state,
        (watchRun threshold receipt avail xs w).events ++
          (watchRun threshold receipt avail ys
            (watchRun threshold receipt avail xs w).state).events,
        (watchRun threshold receipt avail xs w).unsubs +
          (watchRun threshold receipt avail ys
            (watchRun threshold receipt avail xs w).state).unsubs,
        (watchRun threshold receipt avail xs w).fetches ++
          (watchRun threshold receipt avail ys
            (watchRun threshold receipt avail xs w).state).fetches⟩ := by
  induction xs generalizing w with
  | nil => simp [watchRun]
  | cons x xs ih =>
    simp [watchRun, ih, List.append_assoc, Nat.add_assoc]

/-- Closed form of a polling run against the block source of claim C1
(exactly blocks `B+1 … B+T-1` exist): starting with counter `c ≥ 1` and
`c + k = T`, after `k + 1` ticks the counter is `T`, the interval is
cleared, the events carry `c+1 … T` with the hashes of blocks
`B+c … B+T-1`, and every height `B+c … B+T` was fetched — including the
final fetch of the unavailable block `B+T` on the stopping tick. -/
lemma pollRun_availExact_closed (tx bhash B T : Nat) (hf : Nat → Nat) :
    ∀ (k c : Nat), 1 ≤ c → c + k = T →
      pollRun T ⟨tx, some bhash, some B⟩ (availExact B T hf) (k + 1) ⟨c, true⟩ =
        ⟨⟨T, false⟩,
          (List.range k).map (fun i =>
            ⟨((c + 1 + i : Nat) : Int), ⟨tx, some bhash, some B⟩, hf (B + c + i)⟩),
          (List.range (k + 1)).map (fun i => B + c + i)⟩ := by
  intro k
  induction k with
  | zero =>
    intro c hc hT
    have hcT : c = T := by omega
    subst hcT
    have havail : availExact B c hf (B + c) = none := by
      unfold availExact
      rw [if_neg]
      omega
    have hdec : decide (c < c) = false := by simp
    show (⟨_, _, _⟩ : PollOut) = _
    simp [pollRun, pollTick, havail, hdec, List.range_succ]
  | succ k ih =>
    intro c hc hT
    have hlt : c < T := by omega
    have havail : availExact B T hf (B + c) = some (hf (B + c)) := by
      unfold availExact
      rw [if_pos]
      omega
    have hdec : decide (c < T) = true := by simpa using hlt
    have hstep : pollRun T ⟨tx, some bhash, some B⟩ (availExact B T hf)
        (k + 1 + 1) ⟨c, true⟩ =
        ⟨(pollRun T ⟨tx, some bhash, some B⟩ (availExact B T hf) (k + 1)
            ⟨c + 1, true⟩).state,
          ⟨((c + 1 : Nat) : Int), ⟨tx, some bhash, some B⟩, hf (B + c)⟩ ::
            (pollRun T ⟨tx, some bhash, some B⟩ (availExact B T hf) (k + 1)
              ⟨c + 1, true⟩).events,
          (B + c) ::
            (pollRun T ⟨tx, some bhash, some B⟩ (availExact B T hf) (k + 1)
              ⟨c + 1, true⟩).fetches⟩ := by
      show (⟨_, _, _⟩ : PollOut) = _
      simp [pollTick, havail, hdec]
    have hev : (List.range (k + 1)).map (fun i =>
        (⟨((c + 1 + i : Nat) : Int), ⟨tx, some bhash, some B⟩,
          hf (B + c + i)⟩ : ConfirmationEvent)) =
        ⟨((c + 1 : Nat) : Int), ⟨tx, some bhash, some B⟩, hf (B + c)⟩ ::
          (List.range k).map (fun i =>
            ⟨((c + 1 + 1 + i : Nat) : Int), ⟨tx, some bhash, some B⟩,
              hf (B + (c + 1) + i)⟩) := by
      rw [List.range_succ_eq_map, List.map_cons, List.map_map]
      refine congrArg₂ List.cons (by norm_num) (List.map_congr_left fun i _ => ?_)
      simp only [Function.comp_apply]
      rw [ConfirmationEvent.mk.injEq]
      refine ⟨by push_cast; ring, rfl, ?_⟩
      congr 1
      omega
    have hfe : (List.range (k + 1 + 1)).map (fun i => B + c + i) =
        (B + c) :: (List.range (k + 1)).map (fun i => B + (c + 1) + i) := by
      rw [List.range_succ_eq_map, List.map_cons, List.map_map]
      refine congrArg₂ List.cons (by norm_num) (List.map_congr_left fun i _ => ?_)
      simp only [Function.comp_apply]
      omega
    rw [hstep, ih (c + 1) (by omega) (by omega), hev, hfe]

/-- The events of a header step are exactly those the data handler
emits, whether or not it unsubscribes. -/
lemma watchStep_header_events (threshold : Nat) (receipt : ReceiptInfo)
    (avail : Nat → Option Nat) (data : BlockHeader) :
    (watchStep threshold receipt avail .subActive (.header data)).events =
      (subDataHandler threshold receipt data).1 := by
  cases h : (subDataHandler threshold receipt data).2 <;> simp [watchStep, h]

/-- Along an error-free input trace containing a header whose
confirmation number reaches the threshold, the run performs exactly one
`unsubscribe` call and ends in the unsubscribed state. -/
lemma watchRun_trigger_subDone (threshold : Nat) (receipt : ReceiptInfo)
    (avail : Nat → Option Nat) :
    ∀ inputs : List WatchInput, WatchInput.streamError ∉ inputs →
      (∃ i ∈ inputs, triggerInput threshold receipt i = true) →
      (watchRun threshold receipt avail inputs .subActive).unsubs = 1 ∧
      (watchRun threshold receipt avail inputs .subActive).state = .subDone := by
  intro inputs
  induction inputs with
  | nil => intro _ htrig; simp at htrig
  | cons i is ih =>
    intro hne htrig
    have hne' : WatchInput.streamError ∉ is := by
      intro h
      exact hne (List.mem_cons_of_mem _ h)
    rcases htrig with ⟨x, hx, htx⟩
    rcases List.mem_cons.mp hx with hxi | hx'
    · subst hxi
      cases x with
      | streamError => exact absurd (List.mem_cons_self _ _) hne
      | tick => simp [triggerInput] at htx
      | header d =>
        have htd : (subDataHandler threshold receipt d).2 = true := htx
        constructor <;> simp [watchRun, watchStep, htd, watchRun_subDone]
    · cases i with
      | streamError => exact absurd (List.mem_cons_self _ _) hne
      | tick =>
        have h := ih hne' ⟨x, hx', htx⟩
        constructor <;> simp [watchRun, watchStep, h.1, h.2]
      | header d =>
        cases htd : (subDataHandler threshold receipt d).2 with
        | true => constructor <;> simp [watchRun, watchStep, htd, watchRun_subDone]
        | false =>
          have h := ih hne' ⟨x, hx', htx⟩
          constructor <;> simp [watchRun, watchStep, htd, h.1, h.2]

/-! ## Claim theorems -/

/-- Claim C1 (amended): for every threshold `T ≥ 1` and receipt block
number `B`, with exactly blocks `B+1 … B+T-1` available, a polling run
of `T` ticks emits exactly `T-1` confirmation events carrying
`2, 3, …, T`, strictly increasing, and ends with counter `T` and the
interval cleared.  The fetched heights are `B+1 … B+T`: the stopping
tick — the first tick at which the counter has reached the threshold —
still performs one final fetch, of the unavailable block `B+T`,
emitting nothing; once the interval is cleared no tick fetches or
emits. -/
theorem c1_polling_confirmation_run (tx bhash B T : Nat) (hf : Nat → Nat)
    (hT : 1 ≤ T) :
    ((pollRun T ⟨tx, some bhash, some B⟩ (availExact B T hf) T
        watchByPolling).events.map (fun e => e.confirmationNumber)) =
      (List.range (T - 1)).map (fun i => ((i + 2 : Nat) : Int)) ∧
    ((pollRun T ⟨tx, some bhash, some B⟩ (availExact B T hf) T
        watchByPolling).events.map (fun e => e.confirmationNumber)).Pairwise
      (fun a b => a < b) ∧
    (pollRun T ⟨tx, some bhash, some B⟩ (availExact B T hf) T
        watchByPolling).state = ⟨T, false⟩ ∧
    (pollRun T ⟨tx, some bhash, some B⟩ (availExact B T hf) T
        watchByPolling).fetches = (List.range T).map (fun i => B + 1 + i) ∧
    ∀ m, pollRun T ⟨tx, some bhash, some B⟩ (availExact B T hf) m ⟨T, false⟩ =
      ⟨⟨T, false⟩, [], []⟩ := by
  have hkey := pollRun_availExact_closed tx bhash B T hf (T - 1) 1 le_rfl (by omega)
  have hTT : T - 1 + 1 = T := by omega
  rw [hTT] at hkey
  have hinit : watchByPolling = (⟨1, true⟩ : PollState) := rfl
  refine ⟨?_, ?_, ?_, ?_, ?_⟩
  · rw [hinit, hkey, List.map_map]
    refine List.map_congr_left fun i _ => ?_
    simp only [Function.comp_apply]
    push_cast
    ring
  · rw [List.pairwise_map]
    exact (pollRun_events_lt T ⟨tx, some bhash, some B⟩ (availExact B T hf) T
      watchByPolling).2
  · rw [hinit, hkey]
  · rw [hinit, hkey]
  · intro m
    exact pollRun_inactive T ⟨tx, some bhash, some B⟩ (availExact B T hf) m
      ⟨T, false⟩ rfl

/-- Witness for the C1 theorem, at scenario A of the specification:
threshold 3, receipt block 100, blocks 101 and 102 available: the run
emits confirmation numbers 2 then 3 and stops with the counter at 3. -/
theorem c1_polling_confirmation_run_witness :
    1 ≤ 3 ∧
    ((pollRun 3 ⟨0, some 1, some 100⟩ (availExact 100 3 (fun h => h)) 3
        watchByPolling).events.map (fun e => e.confirmationNumber)) = [2, 3] ∧
    (pollRun 3 ⟨0, some 1, some 100⟩ (availExact 100 3 (fun h => h)) 3
        watchByPolling).state = ⟨3, false⟩ := by
  have h := c1_polling_confirmation_run 0 1 100 3 (fun h => h) (by norm_num)
  refine ⟨by norm_num, ?_, h.2.2.1⟩
  rw [h.1]
  decide

/-- Counterexample to claim C1 as stated: with threshold 2 and receipt
block 100, the counter has already reached the threshold after one tick
(it is 2), yet the second tick still performs a fetch — of block 102 —
contradicting "no subsequent tick performs a fetch". -/
theorem c1_counterexample :
    2 ≤ (pollRun 2 ⟨0, some 1, some 100⟩ (availExact 100 2 (fun h => h)) 1
        watchByPolling).state.confirmationNumber ∧
    (pollRun 2 ⟨0, some 1, some 100⟩ (availExact 100 2 (fun h => h)) 2
        watchByPolling).fetches = [101, 102] := by
  exact ⟨by decide, by decide⟩

/-- Claim C3 (the code diverges at the first guard): when the receipt
itself is nullish, the thrown error's payload evaluates
`transactionReceipt.blockHash` — a member access on a nullish value —
so the call raises a JavaScript `TypeError`, not the claimed
`TransactionMissingReceiptOrBlockHashError`.  The remaining guards
behave as claimed: a present receipt lacking a block hash raises
`TransactionMissingReceiptOrBlockHashError`, and an absent or zero
block number raises `TransactionReceiptMissingBlockNumberError`. -/
theorem c3_validation_raises_typeError :
    watchValidate none 0 = .error .typeError ∧
    (∀ rOpt bHash tHash, watchValidate none 0 ≠
      .error (.transactionMissingReceiptOrBlockHash rOpt bHash tHash)) ∧
    (∀ a bn tHash, watchValidate (some ⟨a, none, bn⟩) tHash =
      .error (.transactionMissingReceiptOrBlockHash (some ⟨a, none, bn⟩) none tHash)) ∧
    (∀ a bh tHash, watchValidate (some ⟨a, some bh, some 0⟩) tHash =
      .error (.transactionReceiptMissingBlockNumber ⟨a, some bh, some 0⟩)) ∧
    (∀ a bh tHash, watchValidate (some ⟨a, some bh, none⟩) tHash =
      .error (.transactionReceiptMissingBlockNumber ⟨a, some bh, none⟩)) := by
  refine ⟨rfl, ?_, ?_, ?_, ?_⟩ <;> intro x y z <;> simp [watchValidate]

/-- Claim C5: on a mid-stream subscription error the watch performs one
`unsubscribe` call, surfaces nothing (no event, no error output), and
restarts via the polling observer with the same receipt and context and
the counter back at 1; and the transition is one-way — from polling
mode every input leads back to a polling state. -/
theorem c5_stream_error_falls_back_to_polling (threshold : Nat)
    (receipt : ReceiptInfo) (avail : Nat → Option Nat) :
    watchStep threshold receipt avail .subActive .streamError =
      ⟨.polling watchByPolling, [], 1, []⟩ ∧
    watchByPolling = ⟨1, true⟩ ∧
    ∀ (s : PollState) (i : WatchInput), ∃ s',
      (watchStep threshold receipt avail (.polling s) i).state = .polling s' := by
  refine ⟨rfl, rfl, fun s i => ?_⟩
  cases i with
  | header d => exact ⟨s, rfl⟩
  | streamError => exact ⟨s, rfl⟩
  | tick => exact ⟨(pollTick threshold receipt avail s).state, rfl⟩

/-- Claim C8: when the initial subscribe call rejects, the watch
results in a `SubscriptionError`; the `catch` handler attaches no
subscription handlers and does not start polling, so no confirmation
event is ever emitted for that watch, whatever inputs later arrive. -/
theorem c8_subscribe_rejection_is_fatal (threshold : Nat)
    (avail : Nat → Option Nat) (a bh bn tHash : Nat) (inputs : List WatchInput) :
    watchTransactionForConfirmations true false threshold avail
      (some ⟨a, some bh, some (bn + 1)⟩) tHash inputs =
        .error .subscriptionError ∧
    emittedEvents (watchTransactionForConfirmations true false threshold avail
      (some ⟨a, some bh, some (bn + 1)⟩) tHash inputs) = [] ∧
    (∀ w, watchBySubscription false ≠ .ok w) := by
  refine ⟨?_, ?_, fun w => ?_⟩ <;>
    simp [watchTransactionForConfirmations, watchValidate, watchBySubscription,
      emittedEvents]

/-- Claim C9: a tick of a live polling interval queries exactly one
block, at height `receipt.blockNumber + counter`; the counter advances
by at most one, never decreases, and at most one event is emitted. -/
theorem c9_one_block_per_tick (threshold : Nat) (receipt : ReceiptInfo)
    (avail : Nat → Option Nat) (c : Nat) :
    (pollTick threshold receipt avail ⟨c, true⟩).fetches =
      [receipt.blockNumber.getD 0 + c] ∧
    c ≤ (pollTick threshold receipt avail ⟨c, true⟩).state.confirmationNumber ∧
    (pollTick threshold receipt avail ⟨c, true⟩).state.confirmationNumber ≤ c + 1 ∧
    (pollTick threshold receipt avail ⟨c, true⟩).events.length ≤ 1 := by
  unfold pollTick
  rcases h : avail (receipt.blockNumber.getD 0 + c) with _ | bh <;> simp [h]

/-- Claim C10: with block hash and block number both present on the
receipt, `watchTransactionForConfirmations` behaves identically for any
two `transactionHash` arguments: same started observer, same emitted
events, same outcome. -/
theorem c10_transaction_hash_independent (supportsSubscriptions subscribeOk : Bool)
    (threshold : Nat) (avail : Nat → Option Nat) (a bh bn tx₁ tx₂ : Nat)
    (inputs : List WatchInput) :
    watchTransactionForConfirmations supportsSubscriptions subscribeOk threshold
      avail (some ⟨a, some bh, some bn⟩) tx₁ inputs =
    watchTransactionForConfirmations supportsSubscriptions subscribeOk threshold
      avail (some ⟨a, some bh, some bn⟩) tx₂ inputs := by
  by_cases h : bn = 0 <;>
    simp [watchTransactionForConfirmations, watchValidate, h]

/-- Counterexample to claim C2 as stated: a header that carries height
0 (`{number: 0}`) is rejected by the truthiness guard `!data?.number`,
so the observer emits nothing — though the claim, which only exempts
headers lacking a height, requires an event with confirmation number
0 − 1 + 1 = 0 for this header. -/
theorem c2_counterexample :
    (watchStep 5 ⟨0, some 1, some 1⟩ (fun _ => none) .subActive
      (.header ⟨some 0, 7, 9⟩)).events = [] := by
  rfl

/-- Claim C2 (amended): a header carrying a nonzero height `n` makes
the data handler emit exactly one event, with confirmation number
`n − receipt.blockNumber + 1` (signed), the original receipt, and the
header's parent hash — not the header's own hash — as
`latestBlockHash`; a header lacking a height or carrying height 0 (both
rejected by the falsy-height guard) produces no emission. -/
theorem c2_header_event_shape (threshold : Nat) (receipt : ReceiptInfo)
    (avail : Nat → Option Nat) (data : BlockHeader) :
    (∀ n : Nat, data.number = some n → n ≠ 0 →
      (watchStep threshold receipt avail .subActive (.header data)).events =
        [⟨(n : Int) - ((receipt.blockNumber.getD 0 : Nat) : Int) + 1, receipt,
          data.parentHash⟩]) ∧
    (data.number.getD 0 = 0 →
      (watchStep threshold receipt avail .subActive (.header data)).events =
        []) := by
  constructor
  · intro n hn h0
    rw [watchStep_header_events]
    simp [subDataHandler, hn, h0]
  · intro h0
    rw [watchStep_header_events]
    rcases hd : data.number with _ | n
    · simp [subDataHandler, hd]
    · rw [hd] at h0
      simp at h0
      simp [subDataHandler, hd, h0]

/-- Witness for the C2 theorem, at scenario B of the specification:
receipt block 100, header `{number: 105, parentHash: 55, hash: 77}`:
one event, confirmation number 6, latest block hash 55 — the parent
hash, not the header's own hash 77. -/
theorem c2_header_event_shape_witness :
    (⟨some 105, 55, 77⟩ : BlockHeader).number = some 105 ∧ (105 : Nat) ≠ 0 ∧
    (watchStep 10 ⟨0, some 1, some 100⟩ (fun _ => none) .subActive
      (.header ⟨some 105, 55, 77⟩)).events =
      [⟨6, ⟨0, some 1, some 100⟩, 55⟩] := by
  refine ⟨rfl, by decide, ?_⟩
  have h := (c2_header_event_shape 10 ⟨0, some 1, some 100⟩ (fun _ => none)
    ⟨some 105, 55, 77⟩).1 105 rfl (by decide)
  rw [h]
  decide

/-- Claim C4: along any error-free input trace in which some delivered
header reaches the threshold, the subscription observer calls
`unsubscribe` exactly once and ends unsubscribed; afterwards every
input is absorbed without any event, and extending the trace by
arbitrary further inputs changes neither the emitted events nor the
unsubscribe count. -/
theorem c4_threshold_unsubscribes_exactly_once (threshold : Nat)
    (receipt : ReceiptInfo) (avail : Nat → Option Nat)
    (inputs : List WatchInput) (hne : WatchInput.streamError ∉ inputs)
    (htrig : ∃ i ∈ inputs, triggerInput threshold receipt i = true) :
    (watchRun threshold receipt avail inputs .subActive).unsubs = 1 ∧
    (watchRun threshold receipt avail inputs .subActive).state = .subDone ∧
    (∀ i, watchStep threshold receipt avail .subDone i =
      ⟨.subDone, [], 0, []⟩) ∧
    ∀ more,
      (watchRun threshold receipt avail (inputs ++ more) .subActive).events =
        (watchRun threshold receipt avail inputs .subActive).events ∧
      (watchRun threshold receipt avail (inputs ++ more) .subActive).unsubs =
        1 := by
  have h := watchRun_trigger_subDone threshold receipt avail inputs hne htrig
  refine ⟨h.1, h.2, watchStep_subDone threshold receipt avail, fun more => ?_⟩
  rw [watchRun_append]
  constructor
  · simp [h.2, watchRun_subDone]
  · simp [h.2, watchRun_subDone, h.1]

/-- Witness for the C4 theorem: threshold 3, receipt block 100; the
single header 105 (confirmation number 6 ≥ 3) triggers exactly one
unsubscribe, and appending a tick and a further header changes the
emitted events not at all. -/
theorem c4_threshold_unsubscribes_exactly_once_witness :
    (watchRun 3 ⟨0, some 1, some 100⟩ (fun _ => none)
      [.header ⟨some 105, 7, 8⟩] .subActive).unsubs = 1 ∧
    (watchRun 3 ⟨0, some 1, some 100⟩ (fun _ => none)
      ([.header ⟨some 105, 7, 8⟩] ++ [.tick, .header ⟨some 200, 1, 2⟩])
      .subActive).events =
      (watchRun 3 ⟨0, some 1, some 100⟩ (fun _ => none)
        [.header ⟨some 105, 7, 8⟩] .subActive).events := by
  have h := c4_threshold_unsubscribes_exactly_once 3 ⟨0, some 1, some 100⟩
    (fun _ => none) [.header ⟨some 105, 7, 8⟩] (by decide) (by decide)
  exact ⟨h.1, (h.2.2.2 [.tick, .header ⟨some 200, 1, 2⟩]).1⟩

/-- Counterexample to claim C6 as stated: receipt block 100, threshold
10; the subscription delivers header 105 (confirmation number 6), then
errors; the fallback polling observer restarts its counter at 1 and,
with block 101 available, next emits confirmation number 2 — the
emitted sequence 6, 2 is not non-decreasing across the fallback. -/
theorem c6_counterexample :
    ((watchRun 10 ⟨0, some 1, some 100⟩
        (fun h => if h = 101 then some 42 else none)
        [.header ⟨some 105, 7, 8⟩, .streamError, .tick] .subActive).events.map
      (fun e => e.confirmationNumber)) = [6, 2] ∧
    ¬ ((watchRun 10 ⟨0, some 1, some 100⟩
        (fun h => if h = 101 then some 42 else none)
        [.header ⟨some 105, 7, 8⟩, .streamError, .tick] .subActive).events.map
      (fun e => e.confirmationNumber)).Pairwise (fun a b => a ≤ b) := by
  exact ⟨by decide, by decide⟩

/-- Claim C6 (amended): each polling observer run — the initial one or
one started by the fallback — begins with its counter at 1 (the
receipt's own inclusion counting as confirmation 1), and within that
run the emitted confirmation numbers are strictly increasing and all at
least 2.  Across the subscription-to-polling fallback the counter
restarts at 1, so the numbers emitted over the whole watch lifetime
need not be non-decreasing (see the counterexample). -/
theorem c6_counter_monotonicity (threshold : Nat) (receipt : ReceiptInfo)
    (avail : Nat → Option Nat) (n : Nat) :
    watchByPolling = ⟨1, true⟩ ∧
    ((pollRun threshold receipt avail n watchByPolling).events.map
      (fun e => e.confirmationNumber)).Pairwise (fun a b => a < b) ∧
    ∀ e ∈ (pollRun threshold receipt avail n watchByPolling).events,
      2 ≤ e.confirmationNumber := by
  refine ⟨rfl, ?_, ?_⟩
  · rw [List.pairwise_map]
    exact (pollRun_events_lt threshold receipt avail n watchByPolling).2
  · intro e he
    have h := (pollRun_events_lt threshold receipt avail n watchByPolling).1 e he
    norm_num [watchByPolling] at h
    omega

/-- Witness for the C6 theorem: threshold 3, receipt block 100, block
101 available; after one tick the event with confirmation number 2 is
emitted and is indeed at least 2. -/
theorem c6_counter_monotonicity_witness :
    (⟨2, ⟨0, some 1, some 100⟩, 9⟩ : ConfirmationEvent) ∈
      (pollRun 3 ⟨0, some 1, some 100⟩
        (fun h => if h = 101 then some 9 else none) 1 watchByPolling).events ∧
    2 ≤ (⟨2, ⟨0, some 1, some 100⟩, 9⟩ : ConfirmationEvent).confirmationNumber := by
  have hm : (⟨2, ⟨0, some 1, some 100⟩, 9⟩ : ConfirmationEvent) ∈
      (pollRun 3 ⟨0, some 1, some 100⟩
        (fun h => if h = 101 then some 9 else none) 1 watchByPolling).events := by
    decide
  exact ⟨hm, (c6_counter_monotonicity 3 ⟨0, some 1, some 100⟩
    (fun h => if h = 101 then some 9 else none) 1).2.2 _ hm⟩

/-- Counterexample to claim C7 as stated: with receipt block 100, the
subscription delivers a header of nonzero height 5, and the data
handler emits an event with confirmation number 5 − 100 + 1 = −94,
which is not ≥ 1. -/
theorem c7_counterexample :
    ((watchStep 10 ⟨0, some 1, some 100⟩ (fun _ => none) .subActive
      (.header ⟨some 5, 7, 8⟩)).events.map (fun e => e.confirmationNumber)) =
      [-94] ∧
    ¬ (1 : Int) ≤ -94 := by
  exact ⟨by decide, by decide⟩

/-- Claim C7 (amended): every event the polling path emits carries a
confirmation number ≥ 1 (indeed ≥ 2); on the subscription path the
emitted confirmation number is ≥ 1 for every header whose height is at
least the receipt's block number.  A header with nonzero height below
the receipt's block number, however, is emitted with a confirmation
number ≤ 0 (see the counterexample). -/
theorem c7_confirmation_number_bounds (threshold : Nat) (receipt : ReceiptInfo)
    (avail : Nat → Option Nat) :
    (∀ (n : Nat) (e : ConfirmationEvent),
      e ∈ (pollRun threshold receipt avail n watchByPolling).events →
      1 ≤ e.confirmationNumber) ∧
    (∀ (data : BlockHeader) (m : Nat), data.number = some m → m ≠ 0 →
      receipt.blockNumber.getD 0 ≤ m →
      ∀ e ∈ (watchStep threshold receipt avail .subActive (.header data)).events,
        1 ≤ e.confirmationNumber) := by
  constructor
  · intro n e he
    have h := (pollRun_events_lt threshold receipt avail n watchByPolling).1 e he
    norm_num [watchByPolling] at h
    omega
  · intro data m hm h0 hB e he
    rw [watchStep_header_events] at he
    simp [subDataHandler, hm, h0] at he
    subst he
    simp only []
    omega

/-- Witness for the C7 theorem, exercising its polling conjunct:
threshold 4, receipt block 100, block 101 available; the emitted event
with confirmation number 2 satisfies the bound. -/
theorem c7_confirmation_number_bounds_witness :
    (⟨2, ⟨0, some 1, some 100⟩, 13⟩ : ConfirmationEvent) ∈
      (pollRun 4 ⟨0, some 1, some 100⟩
        (fun h => if h = 101 then some 13 else none) 1 watchByPolling).events ∧
    1 ≤ (⟨2, ⟨0, some 1, some 100⟩, 13⟩ : ConfirmationEvent).confirmationNumber := by
  have hm : (⟨2, ⟨0, some 1, some 100⟩, 13⟩ : ConfirmationEvent) ∈
      (pollRun 4 ⟨0, some 1, some 100⟩
        (fun h => if h = 101 then some 13 else none) 1 watchByPolling).events := by
    decide
  exact ⟨hm, (c7_confirmation_number_bounds 4 ⟨0, some 1, some 100⟩
    (fun h => if h = 101 then some 13 else none)).1 1 _ hm⟩

end Web3Watch
